import Mathlib

/-
Formal model of the batch spreadsheet-forwarding script `run.py`.

The script consolidates line items from a directory of Excel workbooks into
one output sheet.  We shallowly embed its core logic:

  * Python cell values (as produced by openpyxl with `data_only=True`) are
    modelled by the inductive type `Cell`;
  * the ETD helper `prep_etd` — including the two `re.search` attempts, the
    `datetime.strptime("%Y.%m.%d")` parse and the `strftime("%d-%b")`
    reformat — is modelled by executable parsers over `List Char` that
    reproduce the leftmost-greedy backtracking semantics of the two concrete
    regular expressions used at run.py lines 30 and 33;
  * the batch loop (run.py lines 112-240) is modelled by `runBatch`:
    explicit state passing of the output cursor, the list of written output
    rows and the processed-file counter, with Python exceptions modelled by
    `Except PyExc`.

Sheets are modelled as total functions from (row, column) to `Cell`, which
matches openpyxl's read-only value access: reading a cell never fails and
absent cells read as `None`.
-/

namespace Forwarding

/-- Python values that an openpyxl worksheet cell can hold in this model:
`None`, `int`, `float`, `bool` or `str`.  A `float` is carried by its
decimal representation string, since the script never computes with float
values — it only inspects their type with `isinstance` and (for the I11
cell) converts them with `str`. -/
inductive Cell where
  | null : Cell
  | int (n : Int) : Cell
  | float (repr : String) : Cell
  | bool (b : Bool) : Cell
  | str (s : String) : Cell
deriving DecidableEq

/-- Python `str(value)`, restricted to the cell values of this model. -/
def pyStr : Cell → String
  | Cell.null => "None"
  | Cell.int n => toString n
  | Cell.float r => r
  | Cell.bool b => if b then "True" else "False"
  | Cell.str s => s

/-- The whitespace characters recognised by Python's `str.strip()` and by
the regex class `\s` (restricted to ASCII, which covers every input the
claims exercise). -/
def isPySpace (c : Char) : Bool :=
  c == ' ' || c == '\t' || c == '\n' || c == '\r' || c == '\x0b' || c == '\x0c'

/-- Python `s.strip()` on the character list of a string: drop whitespace
from both ends. -/
def pyStripChars (l : List Char) : List Char :=
  ((l.dropWhile isPySpace).reverse.dropWhile isPySpace).reverse

/-! ### The tag parser `prep_etd` (run.py lines 20-50)

The two patterns searched are
  variant with optional dot (line 30):
    `([0-9]{4}\.[0-9]{1,2}\.[0-9]{1,2})\.?\s*\(([^)]+)\)`
  variant without the optional dot (line 33):
    `([0-9]{4}\.[0-9]{1,2}\.[0-9]{1,2})\s*\(([^)]+)\)`

`re.search` semantics: try to match at each start position from the left,
returning the first position admitting a match; at a position, quantifiers
are greedy with backtracking.  For `\s*` followed by `\(` and for `[^)]+`
followed by `\)` maximal munch is exact (the follower is excluded from the
repeated class), so only the `[0-9]{1,2}` groups and `\.?` backtrack. -/

/-- Greedy `[0-9]{1,2}` with backtracking: try two digits first, then one,
each time running the continuation `k captured rest`. -/
def tryDigits2then1 {α : Type} (l : List Char) (k : List Char → List Char → Option α) :
    Option α :=
  match l with
  | [] => none
  | c1 :: rest1 =>
    if c1.isDigit then
      match rest1 with
      | c2 :: rest2 =>
        if c2.isDigit then (k [c1, c2] rest2) <|> (k [c1] (c2 :: rest2))
        else k [c1] (c2 :: rest2)
      | [] => k [c1] []
    else none

/-- The common tail `\s*\(([^)]+)\)`: skip whitespace, require `(`, capture
a non-empty run of non-`)` characters, require `)`. -/
def tagTail (l : List Char) : Option String :=
  match l.dropWhile isPySpace with
  | '(' :: rest =>
    match rest.dropWhile (fun c => c != ')') with
    | ')' :: _ =>
      let tag := rest.takeWhile (fun c => c != ')')
      if tag.isEmpty then none else some (String.mk tag)
    | _ => none
  | _ => none

/-- After the date group: in the variant with the optional dot, `\.?` is
greedy — if the next character is a dot, first try consuming it, falling
back to not consuming it. -/
def dayTail (optDot : Bool) (dateChars : List Char) (rest : List Char) :
    Option (String × String) :=
  let noDot := (tagTail rest).map (fun tag => (String.mk dateChars, tag))
  if optDot then
    match rest with
    | c :: rest2 =>
      if c == '.' then
        ((tagTail rest2).map (fun tag => (String.mk dateChars, tag))) <|> noDot
      else noDot
    | [] => noDot
  else noDot

/-- Attempt one of the two regex variants at a fixed start position,
returning the two captures (date text, tag text) on success. -/
def matchVariant (optDot : Bool) (l : List Char) : Option (String × String) :=
  match l with
  | y1 :: y2 :: y3 :: y4 :: d1 :: rest1 =>
    if y1.isDigit && y2.isDigit && y3.isDigit && y4.isDigit && d1 == '.' then
      tryDigits2then1 rest1 (fun mm rest2 =>
        match rest2 with
        | d2 :: rest3 =>
          if d2 == '.' then
            tryDigits2then1 rest3 (fun dd rest4 =>
              dayTail optDot (y1 :: y2 :: y3 :: y4 :: '.' :: (mm ++ '.' :: dd)) rest4)
          else none
        | [] => none)
    else none
  | _ => none

/-- `re.search`: try the position-anchored matcher at each start position
from the left, taking the first success. -/
def reSearchAux {α : Type} (m : List Char → Option α) : List Char → Option α
  | [] => m []
  | c :: rest => (m (c :: rest)) <|> reSearchAux m rest

/-- `re.search(pattern, s)` for the two concrete patterns: `optDot = true`
is the first pattern (line 30, with `\.?`), `optDot = false` the second
(line 33). -/
def reSearch (optDot : Bool) (s : String) : Option (String × String) :=
  reSearchAux (matchVariant optDot) s.data

/-! ### `datetime.strptime(date_str_raw, "%Y.%m.%d")`

CPython compiles this format to the regex
`(?P<Y>\d\d\d\d)\.(?P<m>1[0-2]|0[1-9]|[1-9])\.(?P<d>3[01]|[12]\d|0[1-9]|[1-9])`,
applies `re.match` (backtracking inside the regex only), then raises
`ValueError` if the match did not consume the whole string, and finally
builds `datetime(year, month, day)`, which raises `ValueError` when
`year = 0` or the day exceeds the month's length. -/

/-- Digit character in `1`-`9`. -/
def isDigit19 (c : Char) : Bool := c.isDigit && c != '0'

/-- Numeric value of a list of digit characters. -/
def digitsToNat (l : List Char) : Nat :=
  l.foldl (fun n c => n * 10 + (c.toNat - 48)) 0

/-- The strptime day group `3[01]|[12]\d|0[1-9]|[1-9]`: alternatives tried
in order, first local success (nothing follows it inside the regex). -/
def matchDay (l : List Char) : Option (Nat × List Char) :=
  match l with
  | c1 :: c2 :: rest =>
    if c1 == '3' && (c2 == '0' || c2 == '1') then some (30 + (c2.toNat - 48), rest)
    else if (c1 == '1' || c1 == '2') && c2.isDigit then
      some ((c1.toNat - 48) * 10 + (c2.toNat - 48), rest)
    else if c1 == '0' && isDigit19 c2 then some (c2.toNat - 48, rest)
    else if isDigit19 c1 then some (c1.toNat - 48, c2 :: rest)
    else none
  | [c1] => if isDigit19 c1 then some (c1.toNat - 48, []) else none
  | [] => none

/-- The strptime month group `1[0-2]|0[1-9]|[1-9]` with backtracking into
the continuation `k` (the following literal dot and day group). -/
def matchMonth {α : Type} (l : List Char) (k : Nat → List Char → Option α) : Option α :=
  match l with
  | [] => none
  | c1 :: rest1 =>
    let one : Option α := if isDigit19 c1 then k (c1.toNat - 48) rest1 else none
    match rest1 with
    | c2 :: rest2 =>
      let two : Option α :=
        if c1 == '1' && (c2 == '0' || c2 == '1' || c2 == '2') then
          k (10 + (c2.toNat - 48)) rest2
        else if c1 == '0' && isDigit19 c2 then k (c2.toNat - 48) rest2
        else none
      two <|> one
    | [] => one

/-- The regex part of `strptime("%Y.%m.%d")` via `re.match`: four digits,
a dot, the month group, a dot, the day group; returns the captured values
and the unconsumed remainder of the first (leftmost-greedy) match. -/
def reMatchYmd (l : List Char) : Option (Nat × Nat × Nat × List Char) :=
  match l with
  | y1 :: y2 :: y3 :: y4 :: '.' :: rest1 =>
    if y1.isDigit && y2.isDigit && y3.isDigit && y4.isDigit then
      matchMonth rest1 (fun m rest2 =>
        match rest2 with
        | '.' :: rest3 =>
          (matchDay rest3).map (fun dr => (digitsToNat [y1, y2, y3, y4], m, dr.1, dr.2))
        | _ => none)
    else none
  | _ => none

/-- Gregorian leap year, as in Python's `datetime`. -/
def isLeapYear (y : Nat) : Bool := y % 4 == 0 && (y % 100 != 0 || y % 400 == 0)

/-- Length of a month, as validated by the `datetime` constructor. -/
def daysInMonth (y m : Nat) : Nat :=
  if m == 2 then (if isLeapYear y then 29 else 28)
  else if m == 4 || m == 6 || m == 9 || m == 11 then 30
  else 31

/-- `datetime.strptime(s, "%Y.%m.%d")`, returning `some (year, month, day)`
or `none` where Python raises `ValueError` (regex mismatch, unconverted
trailing data, year 0, or day beyond the month's length). -/
def strptimeYmd (s : String) : Option (Nat × Nat × Nat) :=
  match reMatchYmd s.data with
  | none => none
  | some (y, m, d, rest) =>
    if rest.isEmpty then
      if 1 ≤ y && d ≤ daysInMonth y m then some (y, m, d) else none
    else none

/-- Month abbreviations used by `strftime("%b")` in the C locale. -/
def monthAbb : List String :=
  ["Jan", "Feb", "Mar", "Apr", "May", "Jun", "Jul", "Aug", "Sep", "Oct", "Nov", "Dec"]

/-- Two-digit zero-padded day, as `strftime("%d")`. -/
def fmt2 (n : Nat) : String := if n < 10 then "0" ++ toString n else toString n

/-- `date_obj.strftime("%d-%b")`. -/
def strftimeDdMon (ymd : Nat × Nat × Nat) : String :=
  fmt2 ymd.2.2 ++ "-" ++ (monthAbb.getD (ymd.2.1 - 1) "")

/-- The body of `prep_etd` after the `re.search` attempts: on a match,
parse the captured date; on `ValueError` return `(None, ba_str)`
(run.py line 47); with no match return `(None, None)` (line 36). -/
def applyMatch (mr : Option (String × String)) : Option String × Option String :=
  match mr with
  | none => (none, none)
  | some (dateRaw, ba) =>
    match strptimeYmd dateRaw with
    | some ymd => (some (strftimeDdMon ymd), some ba)
    | none => (none, some ba)

/-- `prep_etd(data)` (run.py lines 20-50): non-strings yield `(None, None)`;
otherwise search with the first pattern, falling back to the second, and
process the match.  The final `except Exception` branch of the source is
unreachable (group access and `strftime` on a valid date do not raise). -/
def prep_etd (data : Cell) : Option String × Option String :=
  match data with
  | Cell.str s => applyMatch ((reSearch true s) <|> reSearch false s)
  | _ => (none, none)

/-! ### The row validator (run.py lines 179-190) -/

/-- One conjunct of `has_data` (line 179):
`val is not None and (not isinstance(val, str) or val.strip())` —
for strings, truthiness of `val.strip()` means the stripped text is
non-empty. -/
def hasDataCell : Cell → Bool
  | Cell.null => false
  | Cell.str s => !(pyStripChars s.data).isEmpty
  | _ => true

/-- `has_data` (run.py lines 179-180): `any(...)` over the four cells
`DETAIL, COLOR, PRICE, SQNTY`. -/
def hasData (detail color price sqnty : Cell) : Bool :=
  [detail, color, price, sqnty].any hasDataCell

/-- Python `isinstance(v, (int, float))`.  Note that `bool` is a subclass
of `int` in Python, so boolean cell values satisfy this check. -/
def pyIsinstanceIntFloat : Cell → Bool
  | Cell.int _ => true
  | Cell.float _ => true
  | Cell.bool _ => true
  | _ => false

/-- `price_is_numeric and sqnty_is_numeric` (run.py lines 187-190). -/
def isValidNumeric (price sqnty : Cell) : Bool :=
  pyIsinstanceIntFloat price && pyIsinstanceIntFloat sqnty

/-! ### The batch loop (run.py lines 112-240) -/

/-- A worksheet in read-only value mode: total map from (row, column),
both 1-indexed, to the cell value; absent cells read as `None`. -/
abbrev Sheet := Nat → Nat → Cell

/-- An input workbook after a successful `openpyxl.load_workbook`: its
sheet-name list and the cells of its first sheet (the only sheet the
script reads). -/
structure Workbook where
  sheetnames : List String
  cells : Sheet

/-- The Python exceptions relevant to the per-file handlers
(run.py lines 224-240).  `nameError` is the `NameError` produced by
evaluating the undefined name `zipfile` in the except clause at line 233
(`import zipfile` never appears in run.py). -/
inductive PyExc where
  | fileNotFound
  | keyError
  | badZipFile
  | otherError
  | nameError
deriving DecidableEq

/-- One input file: its name and the outcome of loading it
(`Except.error e` models `openpyxl.load_workbook` raising `e`). -/
structure InputFile where
  name : String
  load : Except PyExc Workbook

/-- One record written to the output template sheet at line 195-202:
the destination row and the eight written fields.  `srcFile` and `srcRow`
are ghost fields recording which input file and input row produced the
record; they are used only to state ordering properties. -/
structure OutputRow where
  destRow : Nat
  etd : Option String
  ba : Option String
  orderNo : String
  color : Cell
  sqnty : Cell
  price : Cell
  detail : Cell
  remark : Cell
  srcFile : String
  srcRow : Nat
deriving DecidableEq

/-- The mutable state of the batch run: `current_output_row`, the sequence
of rows written to the template sheet so far, and
`processed_files_count`. -/
structure BatchState where
  cur : Nat
  writes : List OutputRow
  processed : Nat
deriving DecidableEq

/-- `START_ROW_TEMPLATE` (run.py line 11). -/
def START_ROW_TEMPLATE : Nat := 7

/-- `DATA_BLOCK_START_ROW` (run.py line 12). -/
def DATA_BLOCK_START_ROW : Nat := 19

/-- `DATA_BLOCK_END_ROW` (run.py line 13). -/
def DATA_BLOCK_END_ROW : Nat := 1000

/-- The scanned row indices `range(DATA_BLOCK_START_ROW, DATA_BLOCK_END_ROW + 1)`,
i.e. rows 19 through 1000 inclusive. -/
def scanRows : List Nat :=
  List.range' DATA_BLOCK_START_ROW (DATA_BLOCK_END_ROW + 1 - DATA_BLOCK_START_ROW)

/-- The per-file common fields built once before the row scan
(run.py lines 135-165): the source file name (ghost), `ETD`, `BA`,
`ORDER_NO` and `REMARK`. -/
structure FileCtx where
  fname : String
  etd : Option String
  ba : Option String
  orderNo : String
  remark : Cell

/-- Construction of the per-file context: `ORDER_NO` is the caller-supplied
last sheet name, `etd_data = sheet["I11"].value`, `REMARK = sheet["A22"].value`;
when I11 is `None` both `ETD` and `BA` stay absent, otherwise
`prep_etd(str(etd_data))` is called (run.py lines 143-162). -/
def fileCtx (f : InputFile) (wb : Workbook) (orderNo : String) : FileCtx :=
  let etd_data := wb.cells 11 9
  let remark := wb.cells 22 1
  let eb := if etd_data = Cell.null then (none, none)
            else prep_etd (Cell.str (pyStr etd_data))
  ⟨f.name, eb.1, eb.2, orderNo, remark⟩

/-- The output record written for a valid input row (run.py lines 195-202):
columns B, C, E, F, G, I, K, P of the template at row `cur`. -/
def mkRow (ctx : FileCtx) (cur r : Nat) (detail color price sqnty : Cell) : OutputRow :=
  ⟨cur, ctx.etd, ctx.ba, ctx.orderNo, color, sqnty, price, detail, ctx.remark,
   ctx.fname, r⟩

/-- One iteration of the data-row scan (run.py lines 169-212).  The
accumulator carries the batch state together with the two per-file flags
`data_found_in_block` and `file_had_valid_data`.  Columns G, H, I, J are
columns 7-10. -/
def stepRow (sheet : Sheet) (ctx : FileCtx) (acc : BatchState × Bool × Bool) (r : Nat) :
    BatchState × Bool × Bool :=
  let DETAIL := sheet r 7
  let COLOR := sheet r 8
  let PRICE := sheet r 9
  let SQNTY := sheet r 10
  let st := acc.1
  if hasData DETAIL COLOR PRICE SQNTY then
    if isValidNumeric PRICE SQNTY then
      (⟨st.cur + 1, st.writes ++ [mkRow ctx st.cur r DETAIL COLOR PRICE SQNTY],
        st.processed⟩, true, true)
    else (st, true, acc.2.2)
  else (st, acc.2.1, acc.2.2)

/-- The `try` body of one file iteration (run.py lines 120-222): load the
workbook, skip (`continue`) on zero sheets or an absent `ORDER_NO`,
otherwise scan the data block and finally increment
`processed_files_count`. -/
def tryBody (st : BatchState) (f : InputFile) : Except PyExc BatchState :=
  match f.load with
  | Except.error e => Except.error e
  | Except.ok wb =>
    if wb.sheetnames.isEmpty then Except.ok st
    else
      match (if wb.sheetnames.isEmpty then none else wb.sheetnames.getLast?) with
      | none => Except.ok st
      | some orderNo =>
        let res := scanRows.foldl (stepRow wb.cells (fileCtx f wb orderNo)) (st, false, false)
        Except.ok ⟨res.1.cur, res.1.writes, res.1.processed + 1⟩

/-- One file iteration including the exception handlers (run.py lines
224-240): `FileNotFoundError` and `KeyError` are caught and the loop
continues; for any other exception the next clause evaluates
`zipfile.BadZipFile`, but `zipfile` was never imported, so a `NameError`
is raised while handling the exception and escapes the loop. -/
def handleFile (st : BatchState) (f : InputFile) : Except PyExc BatchState :=
  match tryBody st f with
  | Except.ok st1 => Except.ok st1
  | Except.error e =>
    match e with
    | PyExc.fileNotFound => Except.ok st
    | PyExc.keyError => Except.ok st
    | _ => Except.error PyExc.nameError

/-- The `for filename in sorted(input_files)` loop, threading the batch
state and propagating any escaping exception. -/
def runBatchAux : BatchState → List InputFile → Except PyExc BatchState
  | st, [] => Except.ok st
  | st, f :: fs =>
    match handleFile st f with
    | Except.ok st1 => runBatchAux st1 fs
    | Except.error e => Except.error e

/-- The initial batch state (run.py lines 112-113). -/
def initState : BatchState := ⟨START_ROW_TEMPLATE, [], 0⟩

/-- Python's `<=` on strings: lexicographic comparison of the code-point
sequences.  (Proved below to agree with Lean's `String` order.) -/
def lexLe : List Char → List Char → Bool
  | [], _ => true
  | _ :: _, [] => false
  | a :: as, b :: bs => if a < b then true else if b < a then false else lexLe as bs

/-- `sorted(input_files)`: Python's `sorted` is specified by its result —
the stable permutation of its input that is sorted by the default string
order (lexicographic on code points).  A stable sorted permutation with
respect to a total preorder is unique, so the stable `insertionSort`
models it exactly. -/
def sortFiles (fs : List InputFile) : List InputFile :=
  List.insertionSort (fun a b => lexLe a.name.data b.name.data = true) fs

/-- The whole batch loop over a directory listing `files`. -/
def runBatch (files : List InputFile) : Except PyExc BatchState :=
  runBatchAux initState (sortFiles files)

/-! ### Specification-side definitions

These restate conditions in the words of the specification and of the
claims, to be compared with the code-derived definitions above. -/

/-- The spec's `hasData` condition: at least one of the four values is
non-absent and, when that value is textual, it is not purely
whitespace. -/
def specHasData (detail color price sqnty : Cell) : Prop :=
  ∃ v ∈ [detail, color, price, sqnty],
    v ≠ Cell.null ∧ ∀ s, v = Cell.str s → ¬(s.data.all isPySpace = true)

/-- The claim's notion of an intrinsically numeric value: integer or real,
with boolean-like values and numeric-looking text explicitly excluded. -/
def claimIntrinsicNumeric : Cell → Bool
  | Cell.int _ => true
  | Cell.float _ => true
  | _ => false

/-- The amended notion of a numeric kind as the code implements it:
integer, real, or boolean — Python's `bool` is a subclass of `int`, so
`isinstance(value, (int, float))` also accepts booleans.  Text (even
numeric-looking text) and absent values are excluded. -/
def pyNumericKind : Cell → Bool
  | Cell.int _ => true
  | Cell.float _ => true
  | Cell.bool _ => true
  | _ => false

/-- Single-attempt tag parser described by claim C10: the same parse using
only the first pattern (the one with the optional trailing dot). -/
def prep_etdSingle (data : Cell) : Option String × Option String :=
  match data with
  | Cell.str s => applyMatch (reSearch true s)
  | _ => (none, none)

/-- The claim's per-row acceptance predicate: the row at index `r` of a
sheet satisfies both `hasData` and `isValidNumeric` on columns G-J. -/
def rowValid (sheet : Sheet) (r : Nat) : Bool :=
  hasData (sheet r 7) (sheet r 8) (sheet r 9) (sheet r 10) &&
    isValidNumeric (sheet r 9) (sheet r 10)

/-- The sequence of output records produced by scanning `rows` of a sheet
starting with the output cursor at `cur`. -/
def scanWrites (sheet : Sheet) (ctx : FileCtx) : Nat → List Nat → List OutputRow
  | _, [] => []
  | cur, r :: rest =>
    if rowValid sheet r then
      mkRow ctx cur r (sheet r 7) (sheet r 8) (sheet r 9) (sheet r 10)
        :: scanWrites sheet ctx (cur + 1) rest
    else scanWrites sheet ctx cur rest

/-- The output records contributed by one input file when the cursor is at
`cur`: empty when the file is skipped (load failure, zero sheets, absent
identifier), otherwise the records of the data-block scan. -/
def fileWrites (f : InputFile) (cur : Nat) : List OutputRow :=
  match f.load with
  | Except.error _ => []
  | Except.ok wb =>
    if wb.sheetnames.isEmpty then []
    else
      match (if wb.sheetnames.isEmpty then none else wb.sheetnames.getLast?) with
      | none => []
      | some orderNo => scanWrites wb.cells (fileCtx f wb orderNo) cur scanRows

/-- The number of accepted rows contributed by one input file: zero for a
skipped file, otherwise the number of scanned rows satisfying
`hasData && isValidNumeric`. -/
def fileValidCount (f : InputFile) : Nat :=
  match f.load with
  | Except.error _ => 0
  | Except.ok wb =>
    if wb.sheetnames.isEmpty then 0
    else
      match (if wb.sheetnames.isEmpty then none else wb.sheetnames.getLast?) with
      | none => 0
      | some _ => scanRows.countP (fun r => rowValid wb.cells r)

/-- Total number of accepted rows over a list of input files. -/
def totalValidCount (files : List InputFile) : Nat :=
  (files.map fileValidCount).sum

/-- The stable output order claimed for written records: records of a file
with a smaller name come first; within one file, records are ordered by
ascending input row index. -/
def writeOrder (a b : OutputRow) : Prop :=
  a.srcFile < b.srcFile ∨ (a.srcFile = b.srcFile ∧ a.srcRow < b.srcRow)

/-! ### Concrete fixtures used in witnesses and counterexamples -/

/-- A small input sheet: row 19 is valid (numeric price and quantity),
row 20 has data but a text price, row 21 is valid with a float price,
everything else is empty; I11 holds an ETD text and A22 a remark. -/
def demoSheet : Sheet := fun r c =>
  if r == 19 && c == 9 then Cell.int 50
  else if r == 19 && c == 10 then Cell.int 2
  else if r == 20 && c == 9 then Cell.str "50"
  else if r == 20 && c == 10 then Cell.int 3
  else if r == 21 && c == 7 then Cell.str "thing"
  else if r == 21 && c == 9 then Cell.float "1.5"
  else if r == 21 && c == 10 then Cell.int 4
  else if r == 11 && c == 9 then Cell.str "2024.08.08.(AIR)"
  else if r == 22 && c == 1 then Cell.str "note"
  else Cell.null

/-- A loadable input file built on `demoSheet`. -/
def demoFile : InputFile :=
  ⟨"b.xlsx", Except.ok ⟨["Data", "JB24FW-M34"], demoSheet⟩⟩

/-- A second loadable input file whose only data row has a boolean price. -/
def demoFile2 : InputFile :=
  ⟨"a.xlsx",
   Except.ok ⟨["ORD-2"],
     fun r c =>
       if r == 19 && c == 9 then Cell.bool true
       else if r == 19 && c == 10 then Cell.int 7
       else Cell.null⟩⟩

/-- A corrupt archive: `openpyxl.load_workbook` raises
`zipfile.BadZipFile` on it. -/
def corruptFile : InputFile := ⟨"broken.xlsx", Except.error PyExc.badZipFile⟩

/-- The final state of the batch over `[demoFile]`. -/
def demoResult : BatchState := ((runBatch [demoFile]).toOption).getD initState

/-- The final state of the batch over `[demoFile2, demoFile]`. -/
def demoResult2 : BatchState :=
  ((runBatch [demoFile2, demoFile]).toOption).getD initState

/-- The state after processing `demoFile` alone from the initial state. -/
def demoFileResult : BatchState :=
  ((handleFile initState demoFile).toOption).getD initState

/-- An empty file context, used to instantiate per-row statements. -/
def ctx0 : FileCtx := ⟨"", none, none, "", Cell.null⟩

/-- A sheet whose price column holds the text "50" and whose quantity
column holds a valid integer. -/
def sheet50 : Sheet := fun _ c =>
  if c == 9 then Cell.str "50" else if c == 10 then Cell.int 3 else Cell.null

/-! ## Helper lemmas -/

theorem orElse_eq_none_iff {α : Type} (a b : Option α) :
    (a <|> b) = none ↔ a = none ∧ b = none := by
  cases a <;> simp

theorem lexLe_iff : ∀ as bs : List Char, lexLe as bs = true ↔ ¬List.lt bs as
  | [], [] => by
    simp only [lexLe, true_iff]
    intro h
    nomatch h
  | [], b :: bs => by
    simp only [lexLe, true_iff]
    intro h
    nomatch h
  | a :: as, [] => by
    simp only [lexLe, Bool.false_eq_true, false_iff, not_not]
    exact List.lt.nil a as
  | a :: as, b :: bs => by
    simp only [lexLe]
    by_cases hab : a < b
    · rw [if_pos hab]
      refine iff_of_true rfl ?_
      intro h
      cases h with
      | head _ _ h2 => exact absurd h2 (lt_asymm hab)
      | tail h1 h2 h3 => exact absurd hab h2
    · by_cases hba : b < a
      · rw [if_neg hab, if_pos hba]
        refine iff_of_false (by simp) ?_
        intro h
        exact h (List.lt.head bs as hba)
      · rw [if_neg hab, if_neg hba, lexLe_iff as bs]
        constructor
        · intro h hlt
          cases hlt with
          | head _ _ h2 => exact hba h2
          | tail h1 h2 h3 => exact h h3
        · intro h h3
          exact h (List.lt.tail hba hab h3)

/-- `lexLe` on the character data agrees with the `String` order. -/
theorem lexLe_iff_le (a b : String) : lexLe a.data b.data = true ↔ a ≤ b := by
  rw [lexLe_iff, ← not_lt]
  apply not_congr
  rw [String.lt_iff_toList_lt]
  exact List.lt_iff_lex_lt b.data a.data

theorem pyStripChars_eq_nil_iff (l : List Char) :
    pyStripChars l = [] ↔ l.all isPySpace = true := by
  unfold pyStripChars
  rw [List.reverse_eq_nil_iff, List.dropWhile_eq_nil_iff]
  constructor
  · intro h
    rw [List.all_eq_true]
    intro x hx
    have hx2 : x ∈ l.takeWhile isPySpace ++ l.dropWhile isPySpace := by
      rw [List.takeWhile_append_dropWhile]; exact hx
    rcases List.mem_append.mp hx2 with h1 | h2
    · exact List.mem_takeWhile_imp h1
    · exact h x (List.mem_reverse.mpr h2)
  · intro h x hx
    exact List.all_eq_true.mp h x
      ((List.dropWhile_sublist isPySpace).subset (List.mem_reverse.mp hx))

theorem hasDataCell_iff (v : Cell) :
    hasDataCell v = true ↔
      (v ≠ Cell.null ∧ ∀ s, v = Cell.str s → ¬(s.data.all isPySpace = true)) := by
  cases v with
  | null => simp [hasDataCell]
  | int n => simp [hasDataCell]
  | float r => simp [hasDataCell]
  | bool b => simp [hasDataCell]
  | str s =>
    simp only [hasDataCell, Bool.not_eq_true', List.isEmpty_eq_false, ne_eq,
      pyStripChars_eq_nil_iff]
    constructor
    · intro h
      refine ⟨fun hne => Cell.noConfusion hne, ?_⟩
      intro t ht
      injection ht with hst
      subst hst
      exact h
    · rintro ⟨-, h⟩
      exact h s rfl

/-! ## Claim theorems -/

/-- C6: for the tag/date source text "2024.08.08.(AIR)" the tag parser
returns the date "08-Aug" and the tag "AIR" — the matched date is
reformatted from year.month.day to day-abbreviated-month. -/
theorem C6_roundtrip_example :
    prep_etd (Cell.str "2024.08.08.(AIR)") = (some "08-Aug", some "AIR") := rfl

/-- C7: whenever one of the two pattern attempts matches, capturing a date
text and a tag, and the captured date fails to parse as year.month.day,
`prep_etd` returns date `None` together with the captured tag. -/
theorem C7_tag_preserved_on_bad_date (s dateRaw ba : String)
    (hm : ((reSearch true s) <|> reSearch false s) = some (dateRaw, ba))
    (hp : strptimeYmd dateRaw = none) :
    prep_etd (Cell.str s) = (none, some ba) := by
  simp [prep_etd, hm, applyMatch, hp]

/-- Witness for C7 at the concrete input "2024.13.08.(AIR)" (month 13 is
invalid, so the date fails to parse and the tag "AIR" is preserved). -/
theorem C7_tag_preserved_on_bad_date_witness :
    prep_etd (Cell.str "2024.13.08.(AIR)") = (none, some "AIR") :=
  C7_tag_preserved_on_bad_date "2024.13.08.(AIR)" "2024.13.08" "AIR" rfl rfl

/-- C8: for every input that is not text (including `None`), and for every
text input on which neither regex pattern variant matches, the tag parser
returns `(None, None)`. -/
theorem C8_none_none_on_mismatch :
    (∀ c : Cell, (∀ s, c ≠ Cell.str s) → prep_etd c = (none, none))
    ∧ (∀ s : String, reSearch true s = none → reSearch false s = none →
        prep_etd (Cell.str s) = (none, none)) := by
  constructor
  · intro c h
    cases c with
    | str t => exact absurd rfl (h t)
    | null => rfl
    | int n => rfl
    | float r => rfl
    | bool b => rfl
  · intro s h1 h2
    simp [prep_etd, h1, h2, applyMatch]

/-- Witness for C8 at the concrete inputs `None` and the non-matching text
"hello". -/
theorem C8_none_none_on_mismatch_witness :
    prep_etd Cell.null = (none, none) ∧ prep_etd (Cell.str "hello") = (none, none) :=
  ⟨C8_none_none_on_mismatch.1 Cell.null (fun _ h => Cell.noConfusion h),
   C8_none_none_on_mismatch.2 "hello" rfl rfl⟩

/-- C2 (code bug): a corrupt archive makes `openpyxl.load_workbook` raise
`zipfile.BadZipFile`; the matching except clause at run.py line 233
evaluates the name `zipfile`, which was never imported, so a `NameError`
escapes the batch loop and the whole run aborts instead of skipping only
that file. -/
theorem C2_corrupt_file_aborts_batch :
    runBatch [corruptFile] = Except.error PyExc.nameError := rfl

/-- C3 counterexample: the claim that `isValidNumeric` accepts exactly the
intrinsically numeric values, with boolean-like values excluded, is false:
at price `True` (a Python `bool`) and quantity `2`, the code's
`isinstance(PRICE, (int, float))` check accepts the boolean because `bool`
is a subclass of `int`. -/
theorem C3_boolean_counterexample :
    ¬(∀ price sqnty : Cell, isValidNumeric price sqnty = true ↔
        (claimIntrinsicNumeric price = true ∧ claimIntrinsicNumeric sqnty = true)) := by
  intro h
  have h2 := (h (Cell.bool true) (Cell.int 2)).mp rfl
  exact absurd h2.1 (by simp [claimIntrinsicNumeric])

/-- C3 amended: `isValidNumeric` is true iff both values are of Python
numeric type `int` or `float`, where booleans count because `bool` is a
subclass of `int`; numeric-looking text still does not count, and a
data-bearing row whose price is the text "50" is skipped and counted as
found-but-invalid (the `data_found_in_block` flag is set, no record is
written, the state is unchanged). -/
theorem C3_amended_numeric_kind :
    (∀ price sqnty : Cell, isValidNumeric price sqnty = true ↔
        (pyNumericKind price = true ∧ pyNumericKind sqnty = true))
    ∧ (∀ sqnty : Cell, isValidNumeric (Cell.str "50") sqnty = false)
    ∧ (∀ (sheet : Sheet) (ctx : FileCtx) (st : BatchState) (df fv : Bool) (r : Nat),
        sheet r 9 = Cell.str "50" →
        hasData (sheet r 7) (sheet r 8) (sheet r 9) (sheet r 10) = true →
        stepRow sheet ctx (st, df, fv) r = (st, true, fv)) := by
  refine ⟨?_, ?_, ?_⟩
  · intro p q
    cases p <;> cases q <;> simp [isValidNumeric, pyIsinstanceIntFloat, pyNumericKind]
  · intro q
    simp [isValidNumeric, pyIsinstanceIntFloat]
  · intro sheet ctx st df fv r h9 hd
    have hd' : hasData (sheet r 7) (sheet r 8) (Cell.str "50") (sheet r 10) = true :=
      h9 ▸ hd
    simp [stepRow, h9, hd', isValidNumeric, pyIsinstanceIntFloat]

/-- Witness for C3's amended theorem at concrete inputs: an integer/float
pair is accepted, a boolean price is accepted, a text price "50" with
integer quantity 3 is rejected, and on a data-bearing row it is skipped
while setting the found-data flag. -/
theorem C3_amended_numeric_kind_witness :
    (isValidNumeric (Cell.int 1) (Cell.float "2.5") = true ↔
      (pyNumericKind (Cell.int 1) = true ∧ pyNumericKind (Cell.float "2.5") = true))
    ∧ isValidNumeric (Cell.str "50") (Cell.int 3) = false
    ∧ stepRow sheet50 ctx0 (initState, false, false) 19 = (initState, true, false) :=
  ⟨C3_amended_numeric_kind.1 (Cell.int 1) (Cell.float "2.5"),
   C3_amended_numeric_kind.2.1 (Cell.int 3),
   C3_amended_numeric_kind.2.2 sheet50 ctx0 initState false false 19 rfl rfl⟩

/-- C9: `hasData` is true iff at least one of the four values is
non-absent and, when textual, not purely whitespace; and a scanned row
with `hasData` false is skipped silently — the state and both per-file
flags (including the found-data flag that feeds the "found but invalid"
accounting) are left unchanged. -/
theorem C9_hasData_spec :
    (∀ detail color price sqnty : Cell,
        hasData detail color price sqnty = true ↔
          specHasData detail color price sqnty)
    ∧ (∀ (sheet : Sheet) (ctx : FileCtx) (st : BatchState) (df fv : Bool) (r : Nat),
        hasData (sheet r 7) (sheet r 8) (sheet r 9) (sheet r 10) = false →
        stepRow sheet ctx (st, df, fv) r = (st, df, fv)) := by
  constructor
  · intro d c p q
    unfold hasData specHasData
    rw [List.any_eq_true]
    constructor
    · rintro ⟨v, hv, hvc⟩
      exact ⟨v, hv, (hasDataCell_iff v).mp hvc⟩
    · rintro ⟨v, hv, hvc⟩
      exact ⟨v, hv, (hasDataCell_iff v).mpr hvc⟩
  · intro sheet ctx st df fv r hd
    simp [stepRow, hd]

/-- Witness for C9 at concrete inputs: a row bearing one integer satisfies
the specification predicate, and an all-empty row is skipped with the
state and flags untouched. -/
theorem C9_hasData_spec_witness :
    (hasData (Cell.int 1) Cell.null Cell.null Cell.null = true ↔
      specHasData (Cell.int 1) Cell.null Cell.null Cell.null)
    ∧ stepRow (fun _ _ => Cell.null) ctx0 (initState, false, false) 19
        = (initState, false, false) :=
  ⟨C9_hasData_spec.1 (Cell.int 1) Cell.null Cell.null Cell.null,
   C9_hasData_spec.2 (fun _ _ => Cell.null) ctx0 initState false false 19 rfl⟩

/-! ## Redundancy of the fallback pattern (claim C10)

The two searched patterns differ only in the `\.?` after the date group.
Since `\.?` can match the empty string, every string accepted by the
second (dot-less) variant is accepted by the first; hence the fallback
attempt can never succeed where the first attempt failed. -/

theorem dayTail_ne_none (dc rest : List Char)
    (h : dayTail false dc rest ≠ none) : dayTail true dc rest ≠ none := by
  simp only [dayTail, if_neg Bool.false_ne_true] at h
  cases rest with
  | nil => simpa [dayTail] using h
  | cons c rest2 =>
    by_cases hc : (c == '.') = true
    · simp only [dayTail, if_pos rfl, hc, if_true]
      intro heq
      rw [orElse_eq_none_iff] at heq
      exact h heq.2
    · simpa [dayTail, hc] using h

theorem tryDigits2then1_ne_none {α : Type} (l : List Char)
    (k k' : List Char → List Char → Option α)
    (hk : ∀ a b, k a b ≠ none → k' a b ≠ none) :
    tryDigits2then1 l k ≠ none → tryDigits2then1 l k' ≠ none := by
  cases l with
  | nil => simp [tryDigits2then1]
  | cons c1 rest1 =>
    by_cases h1 : c1.isDigit = true
    · cases rest1 with
      | nil => simpa [tryDigits2then1, h1] using hk [c1] []
      | cons c2 rest2 =>
        by_cases h2 : c2.isDigit = true
        · intro h heq
          apply h
          simp only [tryDigits2then1, h1, h2, if_true] at heq ⊢
          rw [orElse_eq_none_iff] at heq ⊢
          constructor
          · by_contra hne
            exact absurd heq.1 (hk _ _ hne)
          · by_contra hne
            exact absurd heq.2 (hk _ _ hne)
        · simpa [tryDigits2then1, h1, h2] using hk [c1] (c2 :: rest2)
    · simp [tryDigits2then1, h1]

theorem matchVariant_ne_none :
    ∀ l : List Char, matchVariant false l ≠ none → matchVariant true l ≠ none
  | [] => by simp [matchVariant]
  | [c1] => by simp [matchVariant]
  | [c1, c2] => by simp [matchVariant]
  | [c1, c2, c3] => by simp [matchVariant]
  | [c1, c2, c3, c4] => by simp [matchVariant]
  | c1 :: c2 :: c3 :: c4 :: c5 :: rest => by
    by_cases hc : (c1.isDigit && c2.isDigit && c3.isDigit && c4.isDigit
        && (c5 == '.')) = true
    · simp only [matchVariant, hc, if_true]
      apply tryDigits2then1_ne_none
      intro mm rest2
      cases rest2 with
      | nil => simp
      | cons d2 rest3 =>
        by_cases hd : (d2 == '.') = true
        · simp only [hd, if_true]
          apply tryDigits2then1_ne_none
          intro dd rest4
          exact dayTail_ne_none _ _
        · simp [hd]
    · simp [matchVariant, hc]

theorem reSearchAux_ne_none {α : Type} (m m' : List Char → Option α)
    (hm : ∀ l, m l ≠ none → m' l ≠ none) :
    ∀ l, reSearchAux m l ≠ none → reSearchAux m' l ≠ none
  | [] => by simpa [reSearchAux] using hm []
  | c :: rest => by
    intro h heq
    apply h
    simp only [reSearchAux, orElse_eq_none_iff] at heq ⊢
    constructor
    · by_contra hne
      exact absurd heq.1 (hm _ hne)
    · by_contra hne
      exact absurd heq.2 (reSearchAux_ne_none m m' hm rest hne)

theorem reSearch_ne_none (s : String)
    (h : reSearch false s ≠ none) : reSearch true s ≠ none :=
  reSearchAux_ne_none _ _ matchVariant_ne_none s.data h

/-- C10: the loose fallback pattern is redundant — every text matched by
the second (dot-less) regex variant is also matched by the first variant
(whose trailing dot is optional), and consequently the two-attempt parse
`prep_etd` is extensionally equal to the single-attempt parse that uses
only the first pattern. -/
theorem C10_fallback_redundant :
    (∀ s : String, reSearch false s ≠ none → reSearch true s ≠ none)
    ∧ (∀ c : Cell, prep_etd c = prep_etdSingle c) := by
  refine ⟨reSearch_ne_none, ?_⟩
  intro c
  cases c with
  | null => rfl
  | int n => rfl
  | float r => rfl
  | bool b => rfl
  | str s =>
    unfold prep_etd prep_etdSingle
    cases h : reSearch true s with
    | some v => simp [h]
    | none =>
      have h2 : reSearch false s = none := by
        by_contra hne
        exact absurd h (reSearch_ne_none s hne)
      simp [h, h2]

/-- Witness for C10 at concrete inputs: "2024.8.8 (AIR)" is matched by the
dot-less variant, hence (by the theorem) also by the first variant; and
the two parses agree on a concrete text. -/
theorem C10_fallback_redundant_witness :
    reSearch true "2024.8.8 (AIR)" ≠ none
    ∧ prep_etd (Cell.str "2024.8.8 (AIR)")
        = prep_etdSingle (Cell.str "2024.8.8 (AIR)") :=
  ⟨C10_fallback_redundant.1 "2024.8.8 (AIR)" (by decide),
   C10_fallback_redundant.2 (Cell.str "2024.8.8 (AIR)")⟩

/-! ## The batch accounting lemmas (claims C1, C4, C5) -/

theorem scan_foldl_spec (sheet : Sheet) (ctx : FileCtx) :
    ∀ (rows : List Nat) (st : BatchState) (b c : Bool),
      (rows.foldl (stepRow sheet ctx) (st, b, c)).1.cur
          = st.cur + rows.countP (fun r => rowValid sheet r)
      ∧ (rows.foldl (stepRow sheet ctx) (st, b, c)).1.writes
          = st.writes ++ scanWrites sheet ctx st.cur rows
      ∧ (rows.foldl (stepRow sheet ctx) (st, b, c)).1.processed = st.processed
  | [], st, b, c => by simp [scanWrites]
  | r :: rest, st, b, c => by
    by_cases hd : hasData (sheet r 7) (sheet r 8) (sheet r 9) (sheet r 10) = true
    · by_cases hv : isValidNumeric (sheet r 9) (sheet r 10) = true
      · have hstep : stepRow sheet ctx (st, b, c) r
            = (⟨st.cur + 1,
                st.writes ++ [mkRow ctx st.cur r (sheet r 7) (sheet r 8)
                  (sheet r 9) (sheet r 10)],
                st.processed⟩, true, true) := by
          simp [stepRow, hd, hv]
        have ih := scan_foldl_spec sheet ctx rest
          ⟨st.cur + 1,
           st.writes ++ [mkRow ctx st.cur r (sheet r 7) (sheet r 8)
             (sheet r 9) (sheet r 10)],
           st.processed⟩ true true
        have hrv : rowValid sheet r = true := by
          simp [rowValid, hd, hv]
        refine ⟨?_, ?_, ?_⟩
        · rw [List.foldl_cons, hstep, ih.1, List.countP_cons, hrv]
          simp
          omega
        · rw [List.foldl_cons, hstep, ih.2.1, scanWrites, if_pos hrv]
          simp
        · rw [List.foldl_cons, hstep, ih.2.2]
      · have hstep : stepRow sheet ctx (st, b, c) r = (st, true, c) := by
          simp [stepRow, hd, hv]
        have ih := scan_foldl_spec sheet ctx rest st true c
        have hrv : rowValid sheet r = false := by
          simp [rowValid, hd, hv]
        refine ⟨?_, ?_, ?_⟩
        · rw [List.foldl_cons, hstep, ih.1, List.countP_cons, hrv]
          simp
        · rw [List.foldl_cons, hstep, ih.2.1, scanWrites,
            if_neg (by rw [hrv]; exact Bool.false_ne_true)]
        · rw [List.foldl_cons, hstep, ih.2.2]
    · have hstep : stepRow sheet ctx (st, b, c) r = (st, b, c) := by
        simp [stepRow, hd]
      have ih := scan_foldl_spec sheet ctx rest st b c
      have hrv : rowValid sheet r = false := by
        simp [rowValid, hd]
      refine ⟨?_, ?_, ?_⟩
      · rw [List.foldl_cons, hstep, ih.1, List.countP_cons, hrv]
        simp
      · rw [List.foldl_cons, hstep, ih.2.1, scanWrites,
          if_neg (by rw [hrv]; exact Bool.false_ne_true)]
      · rw [List.foldl_cons, hstep, ih.2.2]

theorem scanWrites_length (sheet : Sheet) (ctx : FileCtx) :
    ∀ (rows : List Nat) (cur : Nat),
      (scanWrites sheet ctx cur rows).length
        = rows.countP (fun r => rowValid sheet r)
  | [], _ => rfl
  | r :: rest, cur => by
    by_cases h : rowValid sheet r = true
    · rw [scanWrites, if_pos h, List.length_cons,
        scanWrites_length sheet ctx rest (cur + 1), List.countP_cons, h]
      simp
    · rw [scanWrites, if_neg h,
        scanWrites_length sheet ctx rest cur, List.countP_cons]
      simp [h]

theorem fileWrites_length (f : InputFile) (cur : Nat) :
    (fileWrites f cur).length = fileValidCount f := by
  unfold fileWrites fileValidCount
  cases f.load with
  | error e => rfl
  | ok wb =>
    by_cases hs : wb.sheetnames.isEmpty = true
    · simp [hs]
    · simp only [hs, if_neg, Bool.false_eq_true, if_false]
      cases wb.sheetnames.getLast? with
      | none => rfl
      | some orderNo => exact scanWrites_length wb.cells (fileCtx f wb orderNo) scanRows cur

set_option maxRecDepth 4000 in
theorem tryBody_ok (st : BatchState) (f : InputFile) (st1 : BatchState)
    (h : tryBody st f = Except.ok st1) :
    st1.cur = st.cur + fileValidCount f
    ∧ st1.writes = st.writes ++ fileWrites f st.cur
    ∧ st.processed ≤ st1.processed := by
  unfold tryBody at h
  split at h
  next e heq => exact Except.noConfusion h
  next wb heq =>
    split at h
    next hs =>
      cases h
      simp [fileValidCount, fileWrites, heq, hs]
    next hs =>
      split at h
      next hnone =>
        cases h
        simp [fileValidCount, fileWrites, heq, hs, hnone]
      next orderNo hsome =>
        cases h
        have hspec := scan_foldl_spec wb.cells (fileCtx f wb orderNo) scanRows st false false
        refine ⟨?_, ?_, ?_⟩
        · have hc : fileValidCount f
              = scanRows.countP (fun r => rowValid wb.cells r) := by
            simp only [fileValidCount, heq]
            rw [if_neg hs, hsome, if_neg hs]
          rw [hc]
          exact hspec.1
        · have hw : fileWrites f st.cur
              = scanWrites wb.cells (fileCtx f wb orderNo) st.cur scanRows := by
            simp only [fileWrites, heq]
            rw [if_neg hs, hsome, if_neg hs]
          rw [hw]
          exact hspec.2.1
        · simp only [hspec.2.2]
          omega

theorem tryBody_error (st : BatchState) (f : InputFile) (e : PyExc)
    (h : tryBody st f = Except.error e) : f.load = Except.error e := by
  unfold tryBody at h
  split at h
  next e2 heq =>
    cases h
    exact heq
  next wb heq =>
    split at h
    next hs => exact Except.noConfusion h
    next hs =>
      split at h
      next hnone => exact Except.noConfusion h
      next orderNo hsome => exact Except.noConfusion h

theorem handleFile_ok (st : BatchState) (f : InputFile) (st1 : BatchState)
    (h : handleFile st f = Except.ok st1) :
    st1.cur = st.cur + fileValidCount f
    ∧ st1.writes = st.writes ++ fileWrites f st.cur
    ∧ st.processed ≤ st1.processed := by
  unfold handleFile at h
  split at h
  next st2 ht =>
    cases h
    exact tryBody_ok st f st1 ht
  next e ht =>
    have hl := tryBody_error st f e ht
    cases e with
    | fileNotFound =>
      cases h
      simp [fileValidCount, fileWrites, hl]
    | keyError =>
      cases h
      simp [fileValidCount, fileWrites, hl]
    | badZipFile => exact Except.noConfusion h
    | otherError => exact Except.noConfusion h
    | nameError => exact Except.noConfusion h

theorem runBatchAux_count :
    ∀ (fs : List InputFile) (st st1 : BatchState),
      runBatchAux st fs = Except.ok st1 →
      st1.cur = st.cur + (fs.map fileValidCount).sum
      ∧ st1.writes.length = st.writes.length + (fs.map fileValidCount).sum
  | [], st, st1, h => by
    cases h
    simp
  | f :: fs, st, st1, h => by
    rw [runBatchAux] at h
    split at h
    next st2 hh =>
      have h1 := handleFile_ok st f st2 hh
      have hlen : st2.writes.length = st.writes.length + fileValidCount f := by
        rw [h1.2.1, List.length_append, fileWrites_length]
      have h2 := runBatchAux_count fs st2 st1 h
      constructor
      · rw [h2.1, h1.1, List.map_cons, List.sum_cons]
        omega
      · rw [h2.2, hlen, List.map_cons, List.sum_cons]
        omega
    next e hh => exact Except.noConfusion h

/-- C1: whenever the batch run completes, the number of output rows
written equals the number of scanned rows (rows 19-1000, columns G-J,
over all input files, where skipped files contribute nothing) satisfying
both `hasData` and `isValidNumeric`, and the final output cursor equals
the starting row 7 plus that count. -/
theorem C1_output_count (files : List InputFile) (st : BatchState)
    (h : runBatch files = Except.ok st) :
    st.writes.length = totalValidCount files
    ∧ st.cur = START_ROW_TEMPLATE + totalValidCount files := by
  have h2 := runBatchAux_count (sortFiles files) initState st h
  have hperm : ((sortFiles files).map fileValidCount).sum = totalValidCount files := by
    unfold totalValidCount sortFiles
    exact List.Perm.sum_eq ((List.perm_insertionSort _ files).map fileValidCount)
  constructor
  · have := h2.2
    rw [hperm] at this
    simpa [initState] using this
  · have := h2.1
    rw [hperm] at this
    simpa [initState] using this

/-- Witness for C1 on a concrete one-file batch: `demoFile` has two valid
rows (19 and 21) and one data-bearing but invalid row (20), so the run
writes two records and leaves the cursor at 9 = 7 + 2. -/
theorem C1_output_count_witness :
    runBatch [demoFile] = Except.ok demoResult
    ∧ demoResult.writes.length = totalValidCount [demoFile]
    ∧ demoResult.cur = START_ROW_TEMPLATE + totalValidCount [demoFile] :=
  ⟨rfl, (C1_output_count [demoFile] demoResult rfl).1,
   (C1_output_count [demoFile] demoResult rfl).2⟩

/-- C4: the output cursor starts at the fixed row 7; each scan step either
writes exactly one record and advances the cursor by exactly one, or
leaves the state untouched; and across a whole file the cursor grows by
exactly the number of records written — it is never decremented and never
reset between files. -/
theorem C4_cursor_invariant :
    initState.cur = START_ROW_TEMPLATE
    ∧ START_ROW_TEMPLATE = 7
    ∧ (∀ (sheet : Sheet) (ctx : FileCtx) (acc : BatchState × Bool × Bool) (r : Nat),
        ((stepRow sheet ctx acc r).1.cur = acc.1.cur + 1
          ∧ (stepRow sheet ctx acc r).1.writes.length = acc.1.writes.length + 1)
        ∨ (stepRow sheet ctx acc r).1 = acc.1)
    ∧ (∀ (st : BatchState) (f : InputFile) (st1 : BatchState),
        handleFile st f = Except.ok st1 →
        ∃ k, st1.cur = st.cur + k ∧ st1.writes.length = st.writes.length + k) := by
  refine ⟨rfl, rfl, ?_, ?_⟩
  · intro sheet ctx acc r
    by_cases hd : hasData (sheet r 7) (sheet r 8) (sheet r 9) (sheet r 10) = true
    · by_cases hv : isValidNumeric (sheet r 9) (sheet r 10) = true
      · left
        simp [stepRow, hd, hv]
      · right
        simp [stepRow, hd, hv]
    · right
      simp [stepRow, hd]
  · intro st f st1 h
    have h1 := handleFile_ok st f st1 h
    exact ⟨fileValidCount f, h1.1,
      by rw [h1.2.1, List.length_append, fileWrites_length]⟩

/-- Witness for C4 on concrete inputs: one scan step on `demoSheet`'s
row 19 writes one record and advances the cursor by one, and processing
`demoFile` from the initial state advances the cursor by the number of
records written. -/
theorem C4_cursor_invariant_witness :
    (((stepRow demoSheet ctx0 (initState, false, false) 19).1.cur
        = initState.cur + 1
      ∧ (stepRow demoSheet ctx0 (initState, false, false) 19).1.writes.length
        = initState.writes.length + 1)
     ∨ (stepRow demoSheet ctx0 (initState, false, false) 19).1 = initState)
    ∧ (handleFile initState demoFile = Except.ok demoFileResult
       ∧ ∃ k, demoFileResult.cur = initState.cur + k
          ∧ demoFileResult.writes.length = initState.writes.length + k) :=
  ⟨C4_cursor_invariant.2.2.1 demoSheet ctx0 (initState, false, false) 19,
   rfl, C4_cursor_invariant.2.2.2 initState demoFile demoFileResult rfl⟩

/-! ## Output ordering (claim C5) -/

theorem scanWrites_mem (sheet : Sheet) (ctx : FileCtx) :
    ∀ (rows : List Nat) (cur : Nat) (w : OutputRow),
      w ∈ scanWrites sheet ctx cur rows → w.srcFile = ctx.fname ∧ w.srcRow ∈ rows
  | [], _, w, h => by simp [scanWrites] at h
  | r :: rest, cur, w, h => by
    by_cases hv : rowValid sheet r = true
    · rw [scanWrites, if_pos hv] at h
      rcases List.mem_cons.mp h with heq | hmem
      · subst heq
        exact ⟨rfl, List.mem_cons_self r rest⟩
      · have ih := scanWrites_mem sheet ctx rest (cur + 1) w hmem
        exact ⟨ih.1, List.mem_cons_of_mem r ih.2⟩
    · rw [scanWrites, if_neg hv] at h
      have ih := scanWrites_mem sheet ctx rest cur w h
      exact ⟨ih.1, List.mem_cons_of_mem r ih.2⟩

theorem scanWrites_pairwise (sheet : Sheet) (ctx : FileCtx) :
    ∀ (rows : List Nat) (cur : Nat),
      rows.Pairwise (· < ·) →
      (scanWrites sheet ctx cur rows).Pairwise (fun a b => a.srcRow < b.srcRow)
  | [], _, _ => by simp [scanWrites]
  | r :: rest, cur, hp => by
    have hp2 := List.pairwise_cons.mp hp
    by_cases hv : rowValid sheet r = true
    · rw [scanWrites, if_pos hv]
      refine List.pairwise_cons.mpr
        ⟨?_, scanWrites_pairwise sheet ctx rest (cur + 1) hp2.2⟩
      intro b hb
      exact hp2.1 b.srcRow (scanWrites_mem sheet ctx rest (cur + 1) b hb).2
    · rw [scanWrites, if_neg hv]
      exact scanWrites_pairwise sheet ctx rest cur hp2.2

theorem scanRows_pairwise : scanRows.Pairwise (· < ·) := by
  unfold scanRows
  exact List.pairwise_lt_range' DATA_BLOCK_START_ROW _ 1

theorem fileWrites_empty_or_scan (f : InputFile) (cur : Nat) :
    fileWrites f cur = []
    ∨ ∃ wb orderNo, f.load = Except.ok wb
        ∧ fileWrites f cur = scanWrites wb.cells (fileCtx f wb orderNo) cur scanRows := by
  cases hl : f.load with
  | error e =>
    left
    simp [fileWrites, hl]
  | ok wb =>
    by_cases hs : wb.sheetnames.isEmpty = true
    · left
      simp [fileWrites, hl, hs]
    · cases hlast : wb.sheetnames.getLast? with
      | none =>
        left
        simp [fileWrites, hl, hs, hlast]
      | some orderNo =>
        right
        refine ⟨wb, orderNo, rfl, ?_⟩
        simp only [fileWrites, hl]
        rw [if_neg hs, if_neg hs, hlast]

theorem fileWrites_mem (f : InputFile) (cur : Nat) (w : OutputRow)
    (h : w ∈ fileWrites f cur) : w.srcFile = f.name := by
  rcases fileWrites_empty_or_scan f cur with he | ⟨wb, orderNo, -, he⟩
  · rw [he] at h
    simp at h
  · rw [he] at h
    exact (scanWrites_mem wb.cells (fileCtx f wb orderNo) scanRows cur w h).1

theorem fileWrites_pairwise (f : InputFile) (cur : Nat) :
    (fileWrites f cur).Pairwise (fun a b => a.srcRow < b.srcRow) := by
  rcases fileWrites_empty_or_scan f cur with he | ⟨wb, orderNo, -, he⟩
  · rw [he]
    exact List.Pairwise.nil
  · rw [he]
    exact scanWrites_pairwise wb.cells (fileCtx f wb orderNo) scanRows cur
      scanRows_pairwise

theorem runBatchAux_pairwise :
    ∀ (fs : List InputFile) (st st1 : BatchState),
      runBatchAux st fs = Except.ok st1 →
      (fs.map InputFile.name).Pairwise (· ≤ ·) →
      (fs.map InputFile.name).Nodup →
      st.writes.Pairwise writeOrder →
      (∀ w ∈ st.writes, ∀ g ∈ fs, w.srcFile < g.name) →
      st1.writes.Pairwise writeOrder
  | [], st, st1, h, _, _, hpw, _ => by
    cases h
    exact hpw
  | f :: fs, st, st1, h, hsorted, hnodup, hpw, hinv => by
    rw [runBatchAux] at h
    split at h
    next st2 hh =>
      have h1 := handleFile_ok st f st2 hh
      have hsorted2 := List.pairwise_cons.mp hsorted
      have hnodup2 := List.nodup_cons.mp hnodup
      have hlt : ∀ g ∈ fs, f.name < g.name := by
        intro g hg
        refine lt_of_le_of_ne (hsorted2.1 g.name (List.mem_map_of_mem _ hg)) ?_
        intro heq
        exact hnodup2.1 (heq ▸ List.mem_map_of_mem InputFile.name hg)
      have hpw2 : st2.writes.Pairwise writeOrder := by
        rw [h1.2.1]
        rw [List.pairwise_append]
        refine ⟨hpw, ?_, ?_⟩
        · exact (fileWrites_pairwise f st.cur).imp_of_mem
            (fun {a b} ha hb hab =>
              Or.inr ⟨(fileWrites_mem f st.cur a ha).trans
                (fileWrites_mem f st.cur b hb).symm, hab⟩)
        · intro a ha b hb
          exact Or.inl
            ((fileWrites_mem f st.cur b hb) ▸ hinv a ha f (List.mem_cons_self f fs))
      have hinv2 : ∀ w ∈ st2.writes, ∀ g ∈ fs, w.srcFile < g.name := by
        intro w hw g hg
        rw [h1.2.1] at hw
        rcases List.mem_append.mp hw with hold | hnew
        · exact hinv w hold g (List.mem_cons_of_mem f hg)
        · rw [fileWrites_mem f st.cur w hnew]
          exact hlt g hg
      exact runBatchAux_pairwise fs st2 st1 h hsorted2.2 hnodup2.2 hpw2 hinv2
    next e hh => exact Except.noConfusion h

/-- C5: output rows are append-only and arrive in a deterministic, stable
order — the files are processed in lexicographically sorted name order,
every record written for a file with a smaller name precedes every record
of a file with a larger name, and within one file records appear in
ascending input-row order. -/
theorem C5_stable_order (files : List InputFile) (st : BatchState)
    (hnodup : (files.map InputFile.name).Nodup)
    (h : runBatch files = Except.ok st) :
    ((sortFiles files).map InputFile.name).Pairwise (· ≤ ·)
    ∧ st.writes.Pairwise writeOrder
    ∧ (∀ (st0 : BatchState) (f : InputFile) (st1 : BatchState),
        handleFile st0 f = Except.ok st1 → ∃ ws, st1.writes = st0.writes ++ ws) := by
  have hperm : List.Perm ((sortFiles files).map InputFile.name)
      (files.map InputFile.name) :=
    (List.perm_insertionSort _ files).map InputFile.name
  have hsorted0 : (sortFiles files).Pairwise
      (fun a b => lexLe a.name.data b.name.data = true) := by
    haveI : IsTotal InputFile (fun a b => lexLe a.name.data b.name.data = true) :=
      ⟨fun a b => by
        rcases le_total a.name b.name with h | h
        · exact Or.inl ((lexLe_iff_le _ _).mpr h)
        · exact Or.inr ((lexLe_iff_le _ _).mpr h)⟩
    haveI : IsTrans InputFile (fun a b => lexLe a.name.data b.name.data = true) :=
      ⟨fun _ _ _ hab hbc => (lexLe_iff_le _ _).mpr
        (le_trans ((lexLe_iff_le _ _).mp hab) ((lexLe_iff_le _ _).mp hbc))⟩
    exact List.sorted_insertionSort _ files
  have hsorted : ((sortFiles files).map InputFile.name).Pairwise (· ≤ ·) :=
    List.Pairwise.map InputFile.name
      (fun _ _ hab => (lexLe_iff_le _ _).mp hab) hsorted0
  refine ⟨hsorted, ?_, ?_⟩
  · exact runBatchAux_pairwise (sortFiles files) initState st h hsorted
      (hperm.nodup_iff.mpr hnodup) (by simp [initState]) (by simp [initState])
  · intro st0 f st1 h1
    exact ⟨fileWrites f st0.cur, (handleFile_ok st0 f st1 h1).2.1⟩

set_option maxRecDepth 40000 in
/-- Witness for C5 on a concrete two-file batch: with the nodup files
`demoFile2` ("a.xlsx") and `demoFile` ("b.xlsx") the run succeeds, the
sorted name list is weakly increasing, all written records are in stable
order, and one concrete file step only appends. -/
theorem C5_stable_order_witness :
    runBatch [demoFile2, demoFile] = Except.ok demoResult2
    ∧ ((sortFiles [demoFile2, demoFile]).map InputFile.name).Pairwise (· ≤ ·)
    ∧ demoResult2.writes.Pairwise writeOrder
    ∧ (∃ ws, demoFileResult.writes = initState.writes ++ ws) := by
  have h := C5_stable_order [demoFile2, demoFile] demoResult2 (by decide) rfl
  exact ⟨rfl, h.1, h.2.1, h.2.2 initState demoFile demoFileResult rfl⟩

end Forwarding
